import Mathlib

/-!
A shallow embedding of the resume-extraction pipeline of
`backend/simple_resume_parser.py` (class SimpleResumeParser), together with
proofs about its specified behaviour.

Modelling conventions:
* Python `str` values are modelled as Lean `String` / `List Char`; the
  character predicates (`\s`, `\w`, `isalpha`, ...) are modelled over ASCII,
  which is the alphabet all inputs of interest use.
* Python regular expressions are embedded as terms of a small regex AST `RE`
  evaluated by a backtracking matcher `reM` that mirrors the CPython `re`
  engine on the features the source uses: alternation tried left to right,
  greedy and lazy repetition, optional parts, capture groups, lookahead,
  word boundaries and end-of-string `\Z`.  `re.search` is leftmost search.
  The matcher is fueled; the fuel bound `reFuel` dominates the recursion
  depth of any match attempt because every repeated sub-pattern of the
  source's regexes consumes at least one character per iteration (the
  matcher additionally rejects empty repetition steps, exactly as the
  CPython engine does).
* External decoders (PyPDF2, pdf2image, python-docx, PIL) and the OCR and
  spaCy engines are opaque to the source; a file buffer is therefore
  modelled by the outcomes those decoders produce on it, and a page image by
  the text the ambient OCR stack returns for it (`_extract_text_with_ocr`
  never raises and returns a plain string, possibly empty).
-/

namespace SimpleResume

/-- ASCII model of the Python regex class `\s` / `str` whitespace. -/
def pyWs (c : Char) : Bool :=
  c = ' ' || c = '\t' || c = '\n' || c = '\r' || c = '\x0b' || c = '\x0c'

/-- ASCII model of the Python regex class `\w`. -/
def pyWord (c : Char) : Bool := c.isAlphanum || c = '_'

/-- Python `str.lower()` (ASCII model). -/
def pyLower (l : List Char) : List Char := l.map Char.toLower

/-- Python `str.strip()`: drop leading and trailing whitespace. -/
def pyStrip (l : List Char) : List Char :=
  ((l.dropWhile pyWs).reverse.dropWhile pyWs).reverse

/-- Python substring containment `needle in hay`. -/
def containsSub (hay needle : List Char) : Bool :=
  match hay with
  | [] => needle.isEmpty
  | c :: rest => needle.isPrefixOf (c :: rest) || containsSub rest needle

/-- Python `str.split(sep)` for a one-character separator (keeps empty parts). -/
def pySplitChar (sep : Char) : List Char → List (List Char)
  | [] => [[]]
  | c :: cs =>
    if c = sep then [] :: pySplitChar sep cs
    else
      match pySplitChar sep cs with
      | [] => [[c]]
      | h :: t => (c :: h) :: t

/-- Python no-argument `str.split()`: split on whitespace runs, dropping empties. -/
def pySplitWsAux : List Char → List Char → List (List Char)
  | [], acc => if acc.isEmpty then [] else [acc.reverse]
  | c :: cs, acc =>
    if pyWs c then
      (if acc.isEmpty then pySplitWsAux cs [] else acc.reverse :: pySplitWsAux cs [])
    else pySplitWsAux cs (c :: acc)

def pySplitWs (l : List Char) : List (List Char) := pySplitWsAux l []

/-- Python `sep.join(parts)`. -/
def joinWith (sep : List Char) : List (List Char) → List Char
  | [] => []
  | [x] => x
  | x :: y :: xs => x ++ sep ++ joinWith sep (y :: xs)

/-- Value of a matched digit group under Python `int(...)`. -/
def digitsToNat (l : List Char) : Nat :=
  l.foldl (fun n c => n * 10 + (c.toNat - 48)) 0

/-! ## A small regex AST with CPython `re` search semantics -/

inductive RE where
  | eps : RE
  | cls : (Char → Bool) → RE
  | seq : RE → RE → RE
  | alt : RE → RE → RE
  | starG : RE → RE
  | starL : RE → RE
  | look : RE → RE
  | grp : Nat → RE → RE
  | bnd : RE
  | eos : RE

abbrev Caps := List (Nat × List Char)

def isWordB : Option Char → Bool
  | some c => pyWord c
  | none => false

def isWordHead : List Char → Bool
  | c :: _ => pyWord c
  | [] => false

/--
Backtracking matcher in continuation style.  `reM fuel r s p caps k` tries to
match `r` at the start of `s`, where `p` is the character just before `s`
(for `\b`), `caps` the capture groups recorded so far, and `k` the
continuation receiving the rest of the input.  Alternatives are tried in
order, `starG` prefers longer matches, `starL` shorter ones; a repetition
step that consumes no character is rejected, as in CPython.  Lookahead
`look` checks a sub-match without consuming input (the source's lookaheads
contain no capture groups, so their captures are discarded).  The fuel only
bounds recursion depth; `reFuel` below always suffices.
-/
def reM : Nat → RE → List Char → Option Char → Caps →
    (List Char → Option Char → Caps → Option (List Char × Caps)) →
    Option (List Char × Caps)
  | 0, _, _, _, _, _ => none
  | fuel + 1, r, s, p, caps, k =>
    match r with
    | .eps => k s p caps
    | .cls f =>
      match s with
      | [] => none
      | c :: rest => if f c then k rest (some c) caps else none
    | .seq a b => reM fuel a s p caps (fun s2 p2 c2 => reM fuel b s2 p2 c2 k)
    | .alt a b => (reM fuel a s p caps k).orElse (fun _ => reM fuel b s p caps k)
    | .starG a =>
      (reM fuel a s p caps (fun s2 p2 c2 =>
          if s2.length < s.length then reM fuel (.starG a) s2 p2 c2 k else none)).orElse
        (fun _ => k s p caps)
    | .starL a =>
      (k s p caps).orElse (fun _ =>
        reM fuel a s p caps (fun s2 p2 c2 =>
          if s2.length < s.length then reM fuel (.starL a) s2 p2 c2 k else none))
    | .look a =>
      match reM fuel a s p caps (fun s2 _ c2 => some (s2, c2)) with
      | some _ => k s p caps
      | none => none
    | .grp i a =>
      reM fuel a s p caps (fun s2 p2 c2 =>
        k s2 p2 ((i, s.take (s.length - s2.length)) :: c2))
    | .bnd => if isWordB p != isWordHead s then k s p caps else none
    | .eos => if s.isEmpty then k s p caps else none

def reSize : RE → Nat
  | .eps => 1
  | .cls _ => 1
  | .bnd => 1
  | .eos => 1
  | .seq a b => reSize a + reSize b + 1
  | .alt a b => reSize a + reSize b + 1
  | .starG a => reSize a + 1
  | .starL a => reSize a + 1
  | .look a => reSize a + 1
  | .grp _ a => reSize a + 1

/-- Depth budget that dominates any match attempt of `r` on `s`. -/
def reFuel (r : RE) (s : List Char) : Nat := (reSize r + 2) * (s.length + 3)

/-- A regex match: the matched text (`group(0)`) and the capture groups. -/
structure RMatch where
  whole : List Char
  caps : Caps
deriving DecidableEq

/-- Python `match.group(i)` (last recorded value of the group). -/
def RMatch.grp (m : RMatch) (i : Nat) : List Char :=
  (((m.caps.find? (fun pr => pr.1 = i)).map (fun pr => pr.2)).getD [])

/-- Leftmost search: try a match at each position from the left. -/
def reSearchIdx (r : RE) : List Char → Option Char → Nat → Option (Nat × RMatch)
  | s, p, i =>
    match reM (reFuel r s) r s p [] (fun s2 _ c2 => some (s2, c2)) with
    | some (rest, caps) => some (i, ⟨s.take (s.length - rest.length), caps⟩)
    | none =>
      match s with
      | [] => none
      | c :: rest => reSearchIdx r rest (some c) (i + 1)

/-- Python `re.search`. -/
def reSearch (r : RE) (s : List Char) : Option RMatch :=
  (reSearchIdx r s none 0).map (fun pr => pr.2)

def reTest (r : RE) (s : List Char) : Bool := (reSearch r s).isSome

/-- Python `re.split` (the source only splits on patterns that cannot match
the empty string, so the empty-match branch is unreachable). -/
def reSplitGo (r : RE) : Nat → List Char → Option Char → List (List Char)
  | 0, s, _ => [s]
  | fuel + 1, s, p =>
    match reSearchIdx r s p 0 with
    | none => [s]
    | some (i, m) =>
      if m.whole.isEmpty then [s]
      else
        let rest := s.drop (i + m.whole.length)
        let prev := (s.drop (i + m.whole.length - 1)).head?
        s.take i :: reSplitGo r fuel rest prev

def reSplit (r : RE) (s : List Char) : List (List Char) :=
  reSplitGo r (s.length + 1) s none

/-! ### Regex building blocks -/

/-- Literal character (case-sensitive). -/
def rchar (c : Char) : RE := .cls (fun d => d = c)

/-- Literal character under `re.IGNORECASE` (`c` given in lowercase). -/
def richar (c : Char) : RE := .cls (fun d => d.toLower = c)

/-- Case-sensitive literal string. -/
def rstr (s : String) : RE := s.data.foldr (fun c r => .seq (rchar c) r) .eps

/-- Literal string under `re.IGNORECASE` (given in lowercase). -/
def ristr (s : String) : RE := s.data.foldr (fun c r => .seq (richar c) r) .eps

/-- Ordered alternation of a list of branches. -/
def ralts : List RE → RE
  | [] => .cls (fun _ => false)
  | [r] => r
  | r :: r2 :: rs => .alt r (ralts (r2 :: rs))

/-- Greedy `r?`. -/
def ropt (r : RE) : RE := .alt r .eps

/-- Greedy `r+`. -/
def rplus (r : RE) : RE := .seq r (.starG r)

/-- Exactly `n` copies of `r`. -/
def rpow : Nat → RE → RE
  | 0, _ => .eps
  | n + 1, r => .seq r (rpow n r)

def rdigit : RE := .cls Char.isDigit
def rwsS : RE := .starG (.cls pyWs)
def rwsP : RE := rplus (.cls pyWs)
def rnl : RE := rchar '\n'
/-- `.` under `re.DOTALL`. -/
def rany : RE := .cls (fun _ => true)
/-- `.` without `re.DOTALL`. -/
def rdot : RE := .cls (fun c => c ≠ '\n')
/-- The class `[:\s]`. -/
def rcolonWs : RE := .cls (fun c => c = ':' || pyWs c)
/-- `[A-Z]` and `[a-z]` under `re.IGNORECASE` both match any ASCII letter. -/
def ralphaI : RE := .cls Char.isAlpha
def rupper : RE := .cls Char.isUpper
def rlower : RE := .cls Char.isLower

/-! ### The source's regex patterns

Each definition transcribes one Python pattern from
`simple_resume_parser.py`, with the flags it is compiled with already
applied (under IGNORECASE, `[A-Z]` and `[a-z]` match any ASCII letter and
literals match case-insensitively; under DOTALL, `.` matches `\n`;
MULTILINE only affects `^`/`$`, which no pattern uses). -/

/-- Section-header lookahead branch `\n\s*[A-Z][a-z]+(?:\s+[A-Z][a-z]+)*\s*:`
of the summary patterns (IGNORECASE). -/
def hdrAfterNlWs : RE :=
  .seq rnl (.seq rwsS (.seq ralphaI (.seq (rplus ralphaI)
    (.seq (.starG (.seq rwsP (.seq ralphaI (rplus ralphaI)))) (.seq rwsS (rchar ':'))))))

/-- Section-header lookahead branch `\n[A-Z][a-z]+(?:\s+[A-Z][a-z]+)*\s*:`
of the skills patterns (IGNORECASE, no `\s*` after `\n`). -/
def hdrAfterNl : RE :=
  .seq rnl (.seq ralphaI (.seq (rplus ralphaI)
    (.seq (.starG (.seq rwsP (.seq ralphaI (rplus ralphaI)))) (.seq rwsS (rchar ':')))))

/-- Blank-line lookahead branch `\n\s*\n`. -/
def rblank : RE := .seq rnl (.seq rwsS rnl)

/-- `(?:Professional\s+)?Summary[:\s]*\n?(.*?)(?=\n\s*[A-Z][a-z]+(?:\s+[A-Z][a-z]+)*\s*:|\n\s*\n|\Z)`
with IGNORECASE|MULTILINE|DOTALL. -/
def summaryP1 : RE :=
  .seq (ropt (.seq (ristr "professional") rwsP))
    (.seq (ristr "summary") (.seq (.starG rcolonWs) (.seq (ropt rnl)
      (.seq (.grp 1 (.starL rany)) (.look (ralts [hdrAfterNlWs, rblank, .eos]))))))

/-- `(?:Career\s+)?Objective[:\s]*\n?(.*?)(?=...)` (same trailer as `summaryP1`). -/
def summaryP2 : RE :=
  .seq (ropt (.seq (ristr "career") rwsP))
    (.seq (ristr "objective") (.seq (.starG rcolonWs) (.seq (ropt rnl)
      (.seq (.grp 1 (.starL rany)) (.look (ralts [hdrAfterNlWs, rblank, .eos]))))))

/-- `Profile[:\s]*\n?(.*?)(?=...)` (same trailer as `summaryP1`). -/
def summaryP3 : RE :=
  .seq (ristr "profile") (.seq (.starG rcolonWs) (.seq (ropt rnl)
    (.seq (.grp 1 (.starL rany)) (.look (ralts [hdrAfterNlWs, rblank, .eos])))))

/-- `(\d+)\+?\s*years?\s*(?:of\s*)?experience` (IGNORECASE). -/
def yearsP1 : RE :=
  .seq (.grp 1 (rplus rdigit)) (.seq (ropt (rchar '+')) (.seq rwsS
    (.seq (ristr "year") (.seq (ropt (richar 's')) (.seq rwsS
      (.seq (ropt (.seq (ristr "of") rwsS)) (ristr "experience")))))))

/-- `experience[:\s]*(\d+)\+?\s*years?` (IGNORECASE). -/
def yearsP2 : RE :=
  .seq (ristr "experience") (.seq (.starG rcolonWs)
    (.seq (.grp 1 (rplus rdigit)) (.seq (ropt (rchar '+')) (.seq rwsS
      (.seq (ristr "year") (ropt (richar 's')))))))

/-- `(\d+)\+?\s*years?\s*in\s*(?:software|development|engineering)` (IGNORECASE). -/
def yearsP3 : RE :=
  .seq (.grp 1 (rplus rdigit)) (.seq (ropt (rchar '+')) (.seq rwsS
    (.seq (ristr "year") (.seq (ropt (richar 's')) (.seq rwsS
      (.seq (ristr "in") (.seq rwsS
        (ralts [ristr "software", ristr "development", ristr "engineering"]))))))))

/-- `(?:Jan|Feb|Mar|Apr|May|Jun|Jul|Aug|Sep|Oct|Nov|Dec)` (IGNORECASE). -/
def monthName : RE :=
  ralts [ristr "jan", ristr "feb", ristr "mar", ristr "apr", ristr "may", ristr "jun",
         ristr "jul", ristr "aug", ristr "sep", ristr "oct", ristr "nov", ristr "dec"]

/-- `(?:Jan|...|Dec)[a-z]*\.?\s+\d{4}` (IGNORECASE). -/
def monthYear : RE :=
  .seq monthName (.seq (.starG ralphaI) (.seq (ropt (rchar '.')) (.seq rwsP (rpow 4 rdigit))))

/-- The class `[-–—to]` under IGNORECASE. -/
def rdashTo : RE :=
  .cls (fun c => c = '-' || c = '–' || c = '—' || c.toLower = 't' || c.toLower = 'o')

/-- `((?:Jan|...)[a-z]*\.?\s+\d{4})\s*[-–—to]\s*((?:Jan|...)[a-z]*\.?\s+\d{4}|present|current)`. -/
def dateP1 : RE :=
  .seq (.grp 1 monthYear) (.seq rwsS (.seq rdashTo (.seq rwsS
    (.grp 2 (ralts [monthYear, ristr "present", ristr "current"])))))

/-- `(\d{4})\s*[-–—to]\s*(\d{4}|present|current)` (IGNORECASE). -/
def dateP2 : RE :=
  .seq (.grp 1 (rpow 4 rdigit)) (.seq rwsS (.seq rdashTo (.seq rwsS
    (.grp 2 (ralts [rpow 4 rdigit, ristr "present", ristr "current"])))))

/-- `\d{1,2}/\d{4}` (greedy bounded repetition). -/
def numMonthYear : RE :=
  .seq rdigit (.seq (ropt rdigit) (.seq (rchar '/') (rpow 4 rdigit)))

/-- `(\d{1,2}/\d{4})\s*[-–—to]\s*(\d{1,2}/\d{4}|present|current)` (IGNORECASE). -/
def dateP3 : RE :=
  .seq (.grp 1 numMonthYear) (.seq rwsS (.seq rdashTo (.seq rwsS
    (.grp 2 (ralts [numMonthYear, ristr "present", ristr "current"])))))

/-- `\d{4}|present|current` (IGNORECASE), the job-block date-line test. -/
def yearOrPresentRE : RE := ralts [rpow 4 rdigit, ristr "present", ristr "current"]

/-- `[A-Z][a-z]+,\s*[A-Z]{2}` (no flags), the job-block location-line test. -/
def cityStRE : RE :=
  .seq rupper (.seq (rplus rlower) (.seq (rchar ',') (.seq rwsS (rpow 2 rupper))))

/-- `(?:Work\s+|Professional\s+)?Experience[:\s]*\n?(.*?)(?=\n\s*(?:Education|Skills|Projects)\s*:|\Z)`
with IGNORECASE|MULTILINE|DOTALL. -/
def expSectionRE : RE :=
  .seq (ropt (.alt (.seq (ristr "work") rwsP) (.seq (ristr "professional") rwsP)))
    (.seq (ristr "experience") (.seq (.starG rcolonWs) (.seq (ropt rnl)
      (.seq (.grp 1 (.starL rany))
        (.look (.alt (.seq rnl (.seq rwsS (.seq (ralts [ristr "education", ristr "skills", ristr "projects"])
          (.seq rwsS (rchar ':'))))) .eos))))))

/-- `\n\s*\n`, the separator splitting the experience section into job blocks. -/
def blockSplitRE : RE := .seq rnl (.seq rwsS rnl)

/-- `(?:Technical\s+)?Skills[:\s]*\n?(.*?)(?=\n\s*\n|\n[A-Z][a-z]+(?:\s+[A-Z][a-z]+)*\s*:|\Z)`
with IGNORECASE|MULTILINE|DOTALL. -/
def skillsP1 : RE :=
  .seq (ropt (.seq (ristr "technical") rwsP))
    (.seq (ristr "skills") (.seq (.starG rcolonWs) (.seq (ropt rnl)
      (.seq (.grp 1 (.starL rany)) (.look (ralts [rblank, hdrAfterNl, .eos]))))))

/-- `Technologies[:\s]*\n?(.*?)(?=\n\s*\n|\n[A-Z]...\s*:|\Z)` (same trailer). -/
def skillsP2 : RE :=
  .seq (ristr "technologies") (.seq (.starG rcolonWs) (.seq (ropt rnl)
    (.seq (.grp 1 (.starL rany)) (.look (ralts [rblank, hdrAfterNl, .eos])))))

/-- `[,•\n\|;·\-\s]{2,}`, the skills-section token delimiter. -/
def skillsDelimRE : RE :=
  let d : RE := .cls (fun c =>
    c = ',' || c = '•' || c = '\n' || c = '|' || c = ';' || c = '·' || c = '-' || pyWs c)
  .seq d (.seq d (.starG d))

/-- `Education[:\s]*\n?(.*?)(?=\n\s*(?:Experience|Skills|Projects)\s*:|\Z)`
with IGNORECASE|MULTILINE|DOTALL. -/
def eduP1 : RE :=
  .seq (ristr "education") (.seq (.starG rcolonWs) (.seq (ropt rnl)
    (.seq (.grp 1 (.starL rany))
      (.look (.alt (.seq rnl (.seq rwsS (.seq (ralts [ristr "experience", ristr "skills", ristr "projects"])
        (.seq rwsS (rchar ':'))))) .eos)))))

/-- `Academic\s+Background[:\s]*\n?(.*?)(?=...)` (same trailer as `eduP1`). -/
def eduP2 : RE :=
  .seq (ristr "academic") (.seq rwsP (.seq (ristr "background") (.seq (.starG rcolonWs) (.seq (ropt rnl)
    (.seq (.grp 1 (.starL rany))
      (.look (.alt (.seq rnl (.seq rwsS (.seq (ralts [ristr "experience", ristr "skills", ristr "projects"])
        (.seq rwsS (rchar ':'))))) .eos)))))))

/-- `(?:title|position|role):\s*(.+)` (IGNORECASE, no DOTALL). -/
def titleP1 : RE :=
  .seq (ralts [ristr "title", ristr "position", ristr "role"])
    (.seq (rchar ':') (.seq rwsS (.grp 1 (rplus rdot))))

/-- `\b(?:Senior|Lead|Principal|Junior)?\s*(?:Software|Full[- ]?Stack|Frontend|Backend|Web|Mobile)?\s*(?:Engineer|Developer|Architect|Manager|Director)\b` (IGNORECASE). -/
def titleP2 : RE :=
  .seq .bnd (.seq (ropt (ralts [ristr "senior", ristr "lead", ristr "principal", ristr "junior"]))
    (.seq rwsS (.seq (ropt (ralts [ristr "software",
        .seq (ristr "full") (.seq (ropt (.cls (fun c => c = '-' || c = ' '))) (ristr "stack")),
        ristr "frontend", ristr "backend", ristr "web", ristr "mobile"]))
      (.seq rwsS (.seq (ralts [ristr "engineer", ristr "developer", ristr "architect",
        ristr "manager", ristr "director"]) .bnd)))))

/-- `\b(?:Product|Project|Engineering|Technical)\s*(?:Manager|Director|Lead)\b` (IGNORECASE). -/
def titleP3 : RE :=
  .seq .bnd (.seq (ralts [ristr "product", ristr "project", ristr "engineering", ristr "technical"])
    (.seq rwsS (.seq (ralts [ristr "manager", ristr "director", ristr "lead"]) .bnd)))

/-- `\b[A-Za-z0-9._%+-]+@[A-Za-z0-9.-]+\.[A-Z|a-z]{2,}\b` (no flags). -/
def emailRE : RE :=
  let locl : RE := .cls (fun c => c.isAlphanum || c = '.' || c = '_' || c = '%' || c = '+' || c = '-')
  let dom : RE := .cls (fun c => c.isAlphanum || c = '.' || c = '-')
  let tld : RE := .cls (fun c => c.isUpper || c.isLower || c = '|')
  .seq .bnd (.seq (rplus locl) (.seq (rchar '@') (.seq (rplus dom)
    (.seq (rchar '.') (.seq tld (.seq tld (.seq (.starG tld) .bnd)))))))

/-- The class `[-.\s]` of the phone patterns. -/
def rdashDotWs : RE := .cls (fun c => c = '-' || c = '.' || pyWs c)

/-- `\d{1,3}` (greedy). -/
def rdigit13 : RE := .seq rdigit (.seq (ropt rdigit) (ropt rdigit))

/-- `\+\d{1,3}[-.\s]?\(?\d{3}\)?[-.\s]?\d{3}[-.\s]?\d{4}` (no flags). -/
def phoneP1 : RE :=
  .seq (rchar '+') (.seq rdigit13 (.seq (ropt rdashDotWs) (.seq (ropt (rchar '('))
    (.seq (rpow 3 rdigit) (.seq (ropt (rchar ')')) (.seq (ropt rdashDotWs)
      (.seq (rpow 3 rdigit) (.seq (ropt rdashDotWs) (rpow 4 rdigit)))))))))

/-- `\(?\d{3}\)?[-.\s]?\d{3}[-.\s]?\d{4}` (no flags). -/
def phoneP2 : RE :=
  .seq (ropt (rchar '(')) (.seq (rpow 3 rdigit) (.seq (ropt (rchar ')'))
    (.seq (ropt rdashDotWs) (.seq (rpow 3 rdigit) (.seq (ropt rdashDotWs) (rpow 4 rdigit))))))

/-- `\d{3}[-.\s]?\d{3}[-.\s]?\d{4}` (no flags). -/
def phoneP3 : RE :=
  .seq (rpow 3 rdigit) (.seq (ropt rdashDotWs) (.seq (rpow 3 rdigit)
    (.seq (ropt rdashDotWs) (rpow 4 rdigit))))

/-- `(?:Location|Address|Based in)[:\s]*([^\n]+)` (no flags). -/
def locP1 : RE :=
  .seq (ralts [rstr "Location", rstr "Address", rstr "Based in"])
    (.seq (.starG rcolonWs) (.grp 1 (rplus (.cls (fun c => c ≠ '\n')))))

/-- `([A-Z][a-z]+,\s*[A-Z]{2})` (no flags). -/
def locP2 : RE := .grp 1 cityStRE

/-- `([A-Z][a-z]+,\s*[A-Z][a-z]+)` (no flags). -/
def locP3 : RE :=
  .grp 1 (.seq rupper (.seq (rplus rlower) (.seq (rchar ',')
    (.seq rwsS (.seq rupper (rplus rlower))))))

/-- The class `[\w-]`. -/
def rwordDash : RE := .cls (fun c => pyWord c || c = '-')

/-- `https?://(?:www\.)?linkedin\.com/in/[\w-]+` (IGNORECASE). -/
def linkedinP1 : RE :=
  .seq (ristr "http") (.seq (ropt (richar 's')) (.seq (rstr "://")
    (.seq (ropt (.seq (ristr "www") (rchar '.')))
      (.seq (ristr "linkedin") (.seq (rchar '.') (.seq (ristr "com")
        (.seq (rstr "/") (.seq (ristr "in") (.seq (rstr "/") (rplus rwordDash))))))))))

/-- `linkedin\.com/in/[\w-]+` (IGNORECASE). -/
def linkedinP2 : RE :=
  .seq (ristr "linkedin") (.seq (rchar '.') (.seq (ristr "com")
    (.seq (rstr "/") (.seq (ristr "in") (.seq (rstr "/") (rplus rwordDash))))))

/-- `https?://(?:www\.)?github\.com/[\w-]+` (IGNORECASE). -/
def githubP1 : RE :=
  .seq (ristr "http") (.seq (ropt (richar 's')) (.seq (rstr "://")
    (.seq (ropt (.seq (ristr "www") (rchar '.')))
      (.seq (ristr "github") (.seq (rchar '.') (.seq (ristr "com")
        (.seq (rstr "/") (rplus rwordDash))))))))

/-- `github\.com/[\w-]+` (IGNORECASE). -/
def githubP2 : RE :=
  .seq (ristr "github") (.seq (rchar '.') (.seq (ristr "com")
    (.seq (rstr "/") (rplus rwordDash))))

/-! ## Data model (dataclasses `WorkExperience` and `ResumeData`) -/

/-- Dataclass `WorkExperience` of the source (field order preserved;
`duration` is never assigned by the extractor and stays `None`). -/
structure WorkExperience where
  company : String
  title : String
  location : Option String
  start_date : Option String
  end_date : Option String
  description : Option String
  duration : Option String
deriving DecidableEq

/-- Dataclass `ResumeData` of the source.  `years_experience` is modelled as
`Nat`: the source obtains it as `int(...)` of a `\d+` match, so it is never
negative. -/
structure ResumeData where
  name : String
  email : String
  phone : String
  title : String
  summary : String
  skills : List String
  experience : List WorkExperience
  education : String
  location : String
  linkedin_url : Option String
  github_url : Option String
  years_experience : Option Nat
deriving DecidableEq

/-- One spaCy entity: `ent.label_` and `ent.text`. -/
structure SpacyEnt where
  label : String
  text : String

/-- Oracle model of a loaded spaCy pipeline: `ents d` is the entity list of
`nlp(d)`, in document order.  `self.nlp = None` is modelled by
`Option Nlp = none`. -/
structure Nlp where
  ents : String → List SpacyEnt

/-! ## Field extractors -/

/-- First `some` produced by `f` along a list (models a Python for-loop
returning on its first hit). -/
def firstSome {α β : Type} (f : α → Option β) : List α → Option β
  | [] => none
  | x :: xs =>
    match f x with
    | some y => some y
    | none => firstSome f xs

/-- Method `_clean_text`, step 1: `re.sub(r'\s+', ' ', text)`. -/
def collapseWsAux : Bool → List Char → List Char
  | _, [] => []
  | prevWs, c :: cs =>
    if pyWs c then
      (if prevWs then collapseWsAux true cs else ' ' :: collapseWsAux true cs)
    else c :: collapseWsAux false cs

def collapseWs (l : List Char) : List Char := collapseWsAux false l

/-- Characters kept by `_clean_text`, step 2: the class `[\w\s@.,()\-+/:#]`. -/
def cleanKeep (c : Char) : Bool :=
  pyWord c || pyWs c || c = '@' || c = '.' || c = ',' || c = '(' || c = ')' ||
    c = '-' || c = '+' || c = '/' || c = ':' || c = '#'

/-- Method `_clean_text`: collapse whitespace runs to one space, replace
characters outside the whitelist by a space, then strip. -/
def cleanText (text : String) : String :=
  ⟨pyStrip ((collapseWs text.data).map (fun c => if cleanKeep c then c else ' '))⟩

/-- Method `_is_valid_name`. -/
def excludeWords : List String :=
  ["university", "college", "institute", "engineer", "developer",
   "manager", "analyst", "consultant", "director", "resume"]

def isValidName (name : List Char) : Bool :=
  if name.isEmpty || (pyStrip name).length < 3 then false
  else
    let words := pySplitWs (pyStrip name)
    if words.length < 2 || 4 < words.length then false
    else if !(words.all (fun w => (w ≠ [] && w.all Char.isAlpha) && 2 ≤ w.length)) then false
    else !(excludeWords.any (fun w => containsSub (pyLower name) w.data))

/-- Contact-info markers that make `_extract_name` skip a line. -/
def nameIndicators : List String :=
  ["@", "phone", "email", "address", "linkedin", "github", "www", "http"]

/-- Pattern-based part of `_extract_name` (method 2): scan the first 10
lines for a line of 2 to 4 capitalized alphabetic words passing
`_is_valid_name`. -/
def nameFromLines : List (List Char) → Option String
  | [] => none
  | l :: rest =>
    let line := pyStrip l
    if line.isEmpty || 60 < line.length then nameFromLines rest
    else if nameIndicators.any (fun ind => containsSub (pyLower line) ind.data) then
      nameFromLines rest
    else
      let words := pySplitWs line
      if (2 ≤ words.length && words.length ≤ 4)
          && words.all (fun w => (w.headD ' ').isUpper && (w ≠ [] && w.all Char.isAlpha))
          && isValidName (joinWith [' '] words) then
        some ⟨joinWith [' '] words⟩
      else nameFromLines rest

/-- NER part of `_extract_name` (method 1): first PERSON entity of at most
4 words whose stripped text passes `_is_valid_name`. -/
def firstPersonEnt : List SpacyEnt → Option String
  | [] => none
  | e :: rest =>
    if e.label = "PERSON" && (pySplitWs e.text.data).length ≤ 4 then
      let name := pyStrip e.text.data
      if isValidName name then some ⟨name⟩ else firstPersonEnt rest
    else firstPersonEnt rest

/-- Method `_extract_name`. -/
def extractName (nlp : Option Nlp) (text : String) : String :=
  let viaNer :=
    match nlp with
    | some m => firstPersonEnt (m.ents ⟨text.data.take 800⟩)
    | none => none
  match viaNer with
  | some n => n
  | none =>
    match nameFromLines ((pySplitChar '\n' text.data).take 10) with
    | some n => n
    | none => "Unknown Name"

/-- Method `_extract_email`: first match of the email pattern (the pattern
has no capture group, so `re.findall` yields whole matches). -/
def extractEmail (text : String) : String :=
  match reSearch emailRE text.data with
  | some m => ⟨m.whole⟩
  | none => ""

/-- Method `_extract_phone`: first match of the first phone pattern that
matches anywhere. -/
def extractPhone (text : String) : String :=
  match firstSome (fun r => reSearch r text.data) [phoneP1, phoneP2, phoneP3] with
  | some m => ⟨m.whole⟩
  | none => ""

/-- Per-line title matching of `_extract_title`: the first pattern only
contains the literal `title`, so it returns `group(1)`; the other two
return `group(0)`. -/
def titleFromLine (line : List Char) : Option String :=
  match reSearch titleP1 line with
  | some m => some ⟨pyStrip (m.grp 1)⟩
  | none =>
    match reSearch titleP2 line with
    | some m => some ⟨pyStrip m.whole⟩
    | none =>
      match reSearch titleP3 line with
      | some m => some ⟨pyStrip m.whole⟩
      | none => none

/-- Method `_extract_title`: scan the first 15 lines. -/
def extractTitle (text : String) : String :=
  match firstSome titleFromLine ((pySplitChar '\n' text.data).take 15) with
  | some t => t
  | none => ""

/-- One iteration of the `_extract_summary` loop: on a match, strip and
whitespace-collapse `group(1)` and keep it only if its length is 50 to 500. -/
def summaryCandidate (r : RE) (text : List Char) : Option (List Char) :=
  match reSearch r text with
  | some m =>
    let s := collapseWs (pyStrip (m.grp 1))
    if 50 ≤ s.length ∧ s.length ≤ 500 then some s else none
  | none => none

/-- Method `_extract_summary`. -/
def extractSummary (text : String) : String :=
  match summaryCandidate summaryP1 text.data with
  | some s => ⟨s⟩
  | none =>
    match summaryCandidate summaryP2 text.data with
    | some s => ⟨s⟩
    | none =>
      match summaryCandidate summaryP3 text.data with
      | some s => ⟨s⟩
      | none => ""

/-- Python `set.add` modelled as order-preserving duplicate-free insertion.
CPython's set iteration order is unspecified; every claim proved below
depends only on membership and cardinality, except where noted. -/
def dedupInsert (l : List String) (x : String) : List String :=
  if x ∈ l then l else l ++ [x]

/-- Token filter of the skills-section loop: stripped length 2 to 25 and
alphanumeric after removing spaces, dots, `+` and `#`. -/
def skillTokenOk (tok : List Char) : Bool :=
  (2 ≤ tok.length && tok.length ≤ 25) &&
    (let f := tok.filter (fun c => c ≠ ' ' && c ≠ '.' && c ≠ '+' && c ≠ '#')
     !f.isEmpty && f.all Char.isAlphanum)

/-- Skills-section harvesting (`_extract_skills`, method 1) for one pattern. -/
def addSectionSkills (r : RE) (text : List Char) (acc : List String) : List String :=
  match reSearch r text with
  | none => acc
  | some m =>
    (reSplit skillsDelimRE (m.grp 1)).foldl
      (fun a it =>
        let sk := pyStrip it
        if skillTokenOk sk then dedupInsert a ⟨sk⟩ else a) acc

/-- The fixed vocabulary `tech_skills` of `_extract_skills`, method 2. -/
def techSkills : List String :=
  ["Python", "JavaScript", "Java", "C++", "C#", "TypeScript", "Go", "Rust",
   "React", "Angular", "Vue.js", "Node.js", "Django", "Flask", "Spring",
   "MongoDB", "PostgreSQL", "MySQL", "Redis", "AWS", "Azure", "Docker",
   "Kubernetes", "Git", "Linux", "REST API", "GraphQL", "Machine Learning",
   "TensorFlow", "PyTorch", "SQL", "HTML", "CSS", "Bootstrap", "Tailwind"]

/-- The skill set built by `_extract_skills` before the final 20-cap. -/
def extractSkillsAll (text : String) : List String :=
  let acc1 := addSectionSkills skillsP1 text.data []
  let acc2 := addSectionSkills skillsP2 text.data acc1
  let low := pyLower text.data
  techSkills.foldl
    (fun a sk => if containsSub low (pyLower sk.data) then dedupInsert a sk else a) acc2

/-- Method `_extract_skills`: `list(skills)[:20]`. -/
def extractSkills (text : String) : List String := (extractSkillsAll text).take 20

/-- Normalization of a matched end date in `_parse_dates`: a
`present`/`current` end date becomes the literal `Present`. -/
def normEnd (e : List Char) : List Char :=
  if pyLower e = "present".data ∨ pyLower e = "current".data then "Present".data else e

/-- Method `_parse_dates`: first of the three date patterns that matches;
`group(1)` and `group(2)` stripped, the end date normalized. -/
def parseDates (dateText : List Char) : Option String × Option String :=
  if dateText.isEmpty then (none, none)
  else
    match firstSome (fun r => reSearch r dateText) [dateP1, dateP2, dateP3] with
    | some m => (some ⟨pyStrip (m.grp 1)⟩, some ⟨normEnd (pyStrip (m.grp 2))⟩)
    | none => (none, none)

/-- Company markers of `_parse_job_block`. -/
def companyMarkers : List String := ["inc", "llc", "corp", "company", "technologies"]

/-- Title markers of `_parse_job_block`. -/
def titleMarkers : List String := ["engineer", "developer", "manager", "analyst", "director"]

/-- Classification state of the `_parse_job_block` loop. -/
structure JBState where
  company : List Char
  title : List Char
  dates : List Char
  location : List Char
  descr : List (List Char)

/-- One iteration of the `_parse_job_block` classification over the first
four lines (the `elif` chain of the source). -/
def jbStep (st : JBState) (line : List Char) : JBState :=
  let low := pyLower line
  if companyMarkers.any (fun m => containsSub low m.data) && st.company.isEmpty then
    { st with company := line }
  else if titleMarkers.any (fun m => containsSub low m.data) && st.title.isEmpty then
    { st with title := line }
  else if reTest yearOrPresentRE line && st.dates.isEmpty then
    { st with dates := line }
  else if reTest cityStRE line && st.location.isEmpty then
    { st with location := line }
  else
    { st with descr := st.descr ++ [line] }

/-- The stripped non-empty lines of a job block. -/
def jobLines (block : List Char) : List (List Char) :=
  ((pySplitChar '\n' block).map pyStrip).filter (fun l => !l.isEmpty)

/-- Method `_parse_job_block`. -/
def parseJobBlock (block : String) : Option WorkExperience :=
  let lines := jobLines block.data
  if lines.length < 2 then none
  else
    let st := (lines.take 4).foldl jbStep ⟨[], [], [], [], []⟩
    let descr := st.descr ++ lines.drop 4
    let dates := parseDates st.dates
    if !st.company.isEmpty || !st.title.isEmpty then
      some
        { company := if st.company.isEmpty then "Unknown Company" else ⟨st.company⟩
          title := if st.title.isEmpty then "Unknown Position" else ⟨st.title⟩
          location := if st.location.isEmpty then none else some ⟨st.location⟩
          start_date := dates.1
          end_date := dates.2
          description :=
            if descr.isEmpty then none else some ⟨joinWith ['\n'] (descr.take 3)⟩
          duration := none }
    else none

/-- Method `_extract_experience`: locate the experience section, split it
into blocks on blank lines, parse blocks of stripped length at least 20,
keep at most 5 entries. -/
def extractExperience (text : String) : List WorkExperience :=
  match reSearch expSectionRE text.data with
  | none => []
  | some m =>
    let expText := pyStrip (m.grp 1)
    let blocks := reSplit blockSplitRE expText
    (blocks.foldl
      (fun acc b =>
        if (pyStrip b).length < 20 then acc
        else
          match parseJobBlock ⟨pyStrip b⟩ with
          | some j => acc ++ [j]
          | none => acc) []).take 5

/-- One iteration of the `_extract_education` loop. -/
def eduCandidate (r : RE) (text : List Char) : Option String :=
  match reSearch r text with
  | some m =>
    let e := collapseWs (pyStrip (m.grp 1))
    if 10 < e.length then some ⟨e.take 300⟩ else none
  | none => none

/-- Method `_extract_education`. -/
def extractEducation (text : String) : String :=
  match firstSome (fun r => eduCandidate r text.data) [eduP1, eduP2] with
  | some e => e
  | none => ""

/-- Method `_is_valid_location`. -/
def isValidLocation (loc : List Char) : Bool :=
  if loc.isEmpty || loc.length < 3 || 50 < loc.length then false
  else !(containsSub loc "@".data || containsSub loc "http".data || containsSub loc "www".data)

/-- One iteration of the pattern loop of `_extract_location`. -/
def locCandidate (r : RE) (text : List Char) : Option String :=
  match reSearch r text with
  | some m =>
    let loc := pyStrip (m.grp 1)
    if isValidLocation loc then some ⟨loc⟩ else none
  | none => none

/-- NER part of `_extract_location`: first GPE/LOC entity passing validation. -/
def firstLocEnt : List SpacyEnt → Option String
  | [] => none
  | e :: rest =>
    if e.label = "GPE" || e.label = "LOC" then
      let loc := pyStrip e.text.data
      if isValidLocation loc then some ⟨loc⟩ else firstLocEnt rest
    else firstLocEnt rest

/-- Method `_extract_location`. -/
def extractLocation (nlp : Option Nlp) (text : String) : String :=
  let viaNer :=
    match nlp with
    | some m => firstLocEnt (m.ents ⟨text.data.take 1000⟩)
    | none => none
  match viaNer with
  | some l => l
  | none =>
    match firstSome (fun r => locCandidate r text.data) [locP1, locP2, locP3] with
    | some l => l
    | none => ""

/-- URL normalization shared by `_extract_linkedin_url` / `_extract_github_url`:
prefix `https://` when the match does not start with `http`. -/
def normUrl (u : List Char) : String :=
  if "http".data.isPrefixOf u then ⟨u⟩ else ⟨"https://".data ++ u⟩

/-- Method `_extract_linkedin_url`. -/
def extractLinkedinUrl (text : String) : Option String :=
  match firstSome (fun r => reSearch r text.data) [linkedinP1, linkedinP2] with
  | some m => some (normUrl m.whole)
  | none => none

/-- Method `_extract_github_url`. -/
def extractGithubUrl (text : String) : Option String :=
  match firstSome (fun r => reSearch r text.data) [githubP1, githubP2] with
  | some m => some (normUrl m.whole)
  | none => none

/-- One iteration of the `_extract_years_experience` loop: on a match,
`int(group(1))` accepted only in the range 0 to 50. -/
def yearsCandidate (r : RE) (text : List Char) : Option Nat :=
  match reSearch r text with
  | some m =>
    let n := digitsToNat (m.grp 1)
    if n ≤ 50 then some n else none
  | none => none

/-- Method `_extract_years_experience`. -/
def extractYears (text : String) : Option Nat :=
  firstSome (fun r => yearsCandidate r text.data) [yearsP1, yearsP2, yearsP3]

/-- Method `_parse_resume_text`: clean the text and assemble the record. -/
def parseResumeText (nlp : Option Nlp) (text : String) : ResumeData :=
  let t := cleanText text
  { name := extractName nlp t
    email := extractEmail t
    phone := extractPhone t
    title := extractTitle t
    summary := extractSummary t
    skills := extractSkills t
    experience := extractExperience t
    education := extractEducation t
    location := extractLocation nlp t
    linkedin_url := extractLinkedinUrl t
    github_url := extractGithubUrl t
    years_experience := extractYears t }

/-! ## Text extraction and the parser facade -/

/-- A page image, modelled by the text the ambient OCR stack
(`_extract_text_with_ocr`) returns for it.  That method never raises: it
catches engine failures and returns the empty string when no engine is
available or all fail. -/
structure PageImage where
  ocrText : String

/-- Paragraphs and tables (tables, then rows, then cell texts) delivered by
`docx.Document` for a well-formed DOCX buffer. -/
structure DocxDoc where
  paragraphs : List String
  tables : List (List (List String))

/-- Abstract model of an uploaded byte buffer.  The external decoders are
opaque, so the buffer is represented by the outcomes they produce on it:
`pdfDirect` is the list of per-page `extract_text()` results of `PyPDF2`
(`none` when the reader raises), `pdfRender` the page images produced by
`pdf2image.convert_from_bytes` (`none` when it raises), `docx` the document
delivered by `docx.Document` (`none` when it raises), and `image` the image
opened by `PIL` (`none` when it raises). -/
structure FileBytes where
  pdfDirect : Option (List String)
  pdfRender : Option (List PageImage)
  docx : Option DocxDoc
  image : Option PageImage

/-- Failure surface of `parse_resume_file`: the explicit
`ValueError("Unsupported file type: ...")` of the dispatch (called
`UnsupportedFileType` by the spec), and the decoder exceptions re-raised by
`_extract_text_from_docx` / `_extract_text_from_image`. -/
inductive ParseError where
  | unsupportedFileType (filename : String)
  | docxDecodeError
  | imageDecodeError
deriving DecidableEq

/-- Direct-extraction accumulator of `_extract_text_from_pdf`, method 1:
pages with non-blank text are concatenated with a newline after each. -/
def pdfDirectText (pages : List String) : String :=
  pages.foldl (fun acc p => if (pyStrip p.data).isEmpty then acc else acc ++ p ++ "\n") ""

/-- OCR accumulator of `_extract_text_from_pdf`, method 2. -/
def pdfOcrText (imgs : List PageImage) : String :=
  imgs.foldl (fun acc im => acc ++ im.ocrText ++ "\n") ""

/-- Method `_extract_text_from_pdf`.  Never raises.  The boolean records
whether the OCR fallback tier ran (pages were rendered and routed through
OCR); it is instrumentation, not part of the source's return value.  When
`PyPDF2` raises, the partial text is modelled as empty; the length check
`len(text.strip()) > 100` then fails and the OCR tier is attempted, as in
the source. -/
def extractTextFromPdf (f : FileBytes) : String × Bool :=
  let text :=
    match f.pdfDirect with
    | some pages => pdfDirectText pages
    | none => ""
  if 100 < (pyStrip text.data).length then (text, false)
  else
    match f.pdfRender with
    | some imgs =>
      let ocrText := pdfOcrText imgs
      if (pyStrip ocrText.data).isEmpty then (text, true) else (ocrText, true)
    | none => (text, false)

/-- Paragraph and table text assembled by `_extract_text_from_docx`:
paragraphs each followed by a newline, then for each table row the cells
each followed by a space, rows each followed by a newline. -/
def docxText (d : DocxDoc) : String :=
  let paras := d.paragraphs.foldl (fun acc p => acc ++ p ++ "\n") ""
  d.tables.foldl
    (fun acc t =>
      t.foldl (fun acc2 row => (row.foldl (fun a c => a ++ c ++ " ") acc2) ++ "\n") acc)
    paras

/-- Method `_extract_text_from_docx`: a decoder failure is logged and then
re-raised to the caller. -/
def extractTextFromDocx (f : FileBytes) : Except ParseError String :=
  match f.docx with
  | some d => .ok (docxText d)
  | none => .error .docxDecodeError

/-- Method `_extract_text_from_image`: a decoder failure is logged and then
re-raised; OCR itself never raises. -/
def extractTextFromImage (f : FileBytes) : Except ParseError String :=
  match f.image with
  | some img => .ok img.ocrText
  | none => .error .imageDecodeError

/-- The suffix dispatch of `parse_resume_file` on `filename.lower()`. -/
inductive FileKind where
  | pdf
  | docx
  | image
  | other
deriving DecidableEq

/-- Python `filename.lower().endswith(sfx)`. -/
def pyEndsWith (filename : String) (sfx : String) : Bool :=
  sfx.data.isSuffixOf (pyLower filename.data)

def fileKind (filename : String) : FileKind :=
  if pyEndsWith filename ".pdf" then .pdf
  else if pyEndsWith filename ".docx" || pyEndsWith filename ".doc" then .docx
  else if pyEndsWith filename ".png" || pyEndsWith filename ".jpg" ||
      pyEndsWith filename ".jpeg" || pyEndsWith filename ".tiff" ||
      pyEndsWith filename ".bmp" then .image
  else .other

/-- The extension list the spec declares supported. -/
def supportedSuffix (filename : String) : Prop :=
  pyEndsWith filename ".pdf" = true ∨ pyEndsWith filename ".docx" = true ∨
    pyEndsWith filename ".doc" = true ∨ pyEndsWith filename ".png" = true ∨
    pyEndsWith filename ".jpg" = true ∨ pyEndsWith filename ".jpeg" = true ∨
    pyEndsWith filename ".tiff" = true ∨ pyEndsWith filename ".bmp" = true

instance (filename : String) : Decidable (supportedSuffix filename) := by
  unfold supportedSuffix
  infer_instance

/-- Method `parse_resume_file`: dispatch on the filename suffix, extract
text, parse it into a `ResumeData`. -/
def parseResumeFile (nlp : Option Nlp) (content : FileBytes) (filename : String) :
    Except ParseError ResumeData :=
  match fileKind filename with
  | .pdf => .ok (parseResumeText nlp (extractTextFromPdf content).1)
  | .docx =>
    match extractTextFromDocx content with
    | .ok t => .ok (parseResumeText nlp t)
    | .error e => .error e
  | .image =>
    match extractTextFromImage content with
    | .ok t => .ok (parseResumeText nlp t)
    | .error e => .error e
  | .other => .error (.unsupportedFileType filename)

deriving instance DecidableEq for Except

/-! ## Helper lemmas -/

theorem firstSome_eq_some {α β : Type} {f : α → Option β} :
    ∀ {l : List α} {y : β}, firstSome f l = some y → ∃ x, x ∈ l ∧ f x = some y := by
  intro l
  induction l with
  | nil => intro y h; exact absurd h (by simp [firstSome])
  | cons x xs ih =>
    intro y h
    simp only [firstSome] at h
    cases hx : f x with
    | some z =>
      rw [hx] at h
      exact ⟨x, by simp, hx.trans h⟩
    | none =>
      rw [hx] at h
      obtain ⟨w, hw, hfw⟩ := ih h
      exact ⟨w, by simp [hw], hfw⟩

theorem summaryCandidate_bounds {r : RE} {t s : List Char}
    (h : summaryCandidate r t = some s) : 50 ≤ s.length ∧ s.length ≤ 500 := by
  unfold summaryCandidate at h
  cases hm : reSearch r t with
  | none => rw [hm] at h; exact absurd h (by simp)
  | some m =>
    rw [hm] at h
    dsimp only at h
    split at h
    · next hc => cases h; exact hc
    · exact absurd h (by simp)

theorem yearsCandidate_le {r : RE} {t : List Char} {n : Nat}
    (h : yearsCandidate r t = some n) : n ≤ 50 := by
  unfold yearsCandidate at h
  cases hm : reSearch r t with
  | none => rw [hm] at h; exact absurd h (by simp)
  | some m =>
    rw [hm] at h
    dsimp only at h
    split at h
    · next hc => cases h; exact hc
    · exact absurd h (by simp)

theorem normEnd_spec (e : List Char) :
    normEnd e = "Present".data ∨
      (pyLower (normEnd e) ≠ "present".data ∧ pyLower (normEnd e) ≠ "current".data) := by
  unfold normEnd
  split
  · exact Or.inl rfl
  · next hc =>
    push_neg at hc
    exact Or.inr hc

theorem mem_dedupInsert_self (l : List String) (x : String) : x ∈ dedupInsert l x := by
  unfold dedupInsert
  split
  · assumption
  · simp

theorem mem_dedupInsert_of_mem {l : List String} {y : String} (x : String) (h : y ∈ l) :
    y ∈ dedupInsert l x := by
  unfold dedupInsert
  split
  · exact h
  · exact List.mem_append.mpr (Or.inl h)

theorem nodup_dedupInsert {l : List String} (x : String) (h : l.Nodup) :
    (dedupInsert l x).Nodup := by
  unfold dedupInsert
  split
  · exact h
  · next hx =>
    refine List.nodup_append.mpr ⟨h, List.nodup_singleton x, fun a ha hax => ?_⟩
    rw [List.mem_singleton] at hax
    exact hx (hax ▸ ha)

theorem nodup_foldl {β : Type} (step : List String → β → List String)
    (hstep : ∀ a x, a.Nodup → (step a x).Nodup) :
    ∀ (l : List β) (acc : List String), acc.Nodup → (l.foldl step acc).Nodup := by
  intro l
  induction l with
  | nil => intro acc h; exact h
  | cons x xs ih => intro acc h; exact ih _ (hstep _ _ h)

theorem mem_foldl_of_mem {β : Type} (step : List String → β → List String)
    (hstep : ∀ a x y, y ∈ a → y ∈ step a x) :
    ∀ (l : List β) (acc : List String) (y : String), y ∈ acc → y ∈ l.foldl step acc := by
  intro l
  induction l with
  | nil => intro acc y h; exact h
  | cons x xs ih => intro acc y h; exact ih _ _ (hstep _ _ _ h)

theorem nodup_addSectionSkills (r : RE) (t : List Char) {acc : List String}
    (h : acc.Nodup) : (addSectionSkills r t acc).Nodup := by
  unfold addSectionSkills
  cases reSearch r t with
  | none => exact h
  | some m =>
    dsimp only
    refine nodup_foldl _ (fun a x ha => ?_) _ _ h
    dsimp only
    split
    · exact nodup_dedupInsert _ ha
    · exact ha

theorem nodup_extractSkillsAll (text : String) : (extractSkillsAll text).Nodup := by
  unfold extractSkillsAll
  refine nodup_foldl _ (fun a x ha => ?_) _ _
    (nodup_addSectionSkills _ _ (nodup_addSectionSkills _ _ List.nodup_nil))
  dsimp only
  split
  · exact nodup_dedupInsert _ ha
  · exact ha

theorem isPrefixOf_append_left : ∀ (n m l : List Char),
    (n ++ m).isPrefixOf l = true → n.isPrefixOf l = true := by
  intro n
  induction n with
  | nil => intro m l _; simp [List.isPrefixOf]
  | cons a n' ih =>
    intro m l h
    cases l with
    | nil => exact absurd h (by simp [List.isPrefixOf])
    | cons b l' =>
      simp only [List.cons_append, List.isPrefixOf, Bool.and_eq_true] at h ⊢
      exact ⟨h.1, ih m l' h.2⟩

theorem containsSub_append_left : ∀ (hay n m : List Char),
    containsSub hay (n ++ m) = true → containsSub hay n = true := by
  intro hay
  induction hay with
  | nil =>
    intro n m h
    simp only [containsSub, List.isEmpty_eq_true, List.append_eq_nil] at h
    simp [containsSub, h.1]
  | cons c rest ih =>
    intro n m h
    simp only [containsSub, Bool.or_eq_true] at h ⊢
    rcases h with h | h
    · exact Or.inl (isPrefixOf_append_left n m _ h)
    · exact Or.inr (ih n m h)

theorem mem_collapseWsAux : ∀ (l : List Char) (b : Bool) (c : Char),
    c ∈ collapseWsAux b l → c = ' ' ∨ (c ∈ l ∧ pyWs c = false) := by
  intro l
  induction l with
  | nil => intro b c h; exact absurd h (List.not_mem_nil c)
  | cons d cs ih =>
    intro b c h
    by_cases hd : pyWs d = true
    · rw [collapseWsAux] at h
      rw [if_pos hd] at h
      have hrec : c ∈ collapseWsAux true cs → c = ' ' ∨ (c ∈ d :: cs ∧ pyWs c = false) := by
        intro h'
        rcases ih true c h' with h1 | ⟨h2, h3⟩
        · exact Or.inl h1
        · exact Or.inr ⟨List.mem_cons_of_mem d h2, h3⟩
      cases b with
      | true =>
        rw [if_pos rfl] at h
        exact hrec h
      | false =>
        rw [if_neg (by simp)] at h
        rcases List.mem_cons.mp h with rfl | h'
        · exact Or.inl rfl
        · exact hrec h'
    · rw [collapseWsAux, if_neg hd] at h
      rcases List.mem_cons.mp h with rfl | h'
      · exact Or.inr ⟨List.mem_cons_self _ _, by simpa using hd⟩
      · rcases ih false c h' with h1 | ⟨h2, h3⟩
        · exact Or.inl h1
        · exact Or.inr ⟨List.mem_cons_of_mem d h2, h3⟩

theorem mem_pyStrip {l : List Char} {c : Char} (h : c ∈ pyStrip l) : c ∈ l := by
  unfold pyStrip at h
  rw [List.mem_reverse] at h
  have h1 := (List.dropWhile_sublist pyWs).subset h
  rw [List.mem_reverse] at h1
  exact (List.dropWhile_sublist pyWs).subset h1

theorem cleanText_no_newline (s : String) : '\n' ∉ (cleanText s).data := by
  intro hmem
  have h1 : '\n' ∈ (collapseWs s.data).map (fun c => if cleanKeep c then c else ' ') :=
    mem_pyStrip hmem
  rcases List.mem_map.mp h1 with ⟨a, ha, hfa⟩
  by_cases hk : cleanKeep a = true
  · rw [if_pos hk] at hfa
    subst hfa
    rcases mem_collapseWsAux s.data false '\n' ha with h' | ⟨_, hws⟩
    · exact absurd h' (by decide)
    · exact absurd hws (by decide)
  · rw [if_neg hk] at hfa
    exact absurd hfa (by decide)

theorem pySplitChar_no_sep : ∀ {sep : Char} {l : List Char},
    sep ∉ l → pySplitChar sep l = [l] := by
  intro sep l
  induction l with
  | nil => intro _; rfl
  | cons c cs ih =>
    intro h
    have hc : ¬ c = sep := fun e => h (e ▸ List.mem_cons_self c cs)
    have hcs : sep ∉ cs := fun hm => h (List.mem_cons_of_mem c hm)
    simp only [pySplitChar, if_neg hc, ih hcs]

theorem mem_techFold (low : List Char) :
    ∀ (sks acc : List String) (y : String), y ∈ sks →
      containsSub low (pyLower y.data) = true →
      y ∈ sks.foldl
        (fun a sk => if containsSub low (pyLower sk.data) then dedupInsert a sk else a) acc := by
  intro sks
  induction sks with
  | nil => intro acc y h _; exact absurd h (List.not_mem_nil y)
  | cons s ss ih =>
    intro acc y hy hc
    rcases List.mem_cons.mp hy with rfl | hy'
    · refine mem_foldl_of_mem _ (fun a x z hz => ?_) ss _ y ?_
      · dsimp only
        split
        · exact mem_dedupInsert_of_mem _ hz
        · exact hz
      · dsimp only [List.foldl]
        rw [if_pos hc]
        exact mem_dedupInsert_self acc y
    · exact ih _ y hy' hc

theorem fileKind_pdf_of {fn : String} (h : pyEndsWith fn ".pdf" = true) :
    fileKind fn = FileKind.pdf := by
  unfold fileKind
  rw [if_pos h]

theorem fileKind_other_iff (fn : String) :
    fileKind fn = FileKind.other ↔ ¬ supportedSuffix fn := by
  unfold fileKind supportedSuffix
  cases h1 : pyEndsWith fn ".pdf" <;>
  cases h2 : pyEndsWith fn ".docx" <;>
  cases h3 : pyEndsWith fn ".doc" <;>
  cases h4 : pyEndsWith fn ".png" <;>
  cases h5 : pyEndsWith fn ".jpg" <;>
  cases h6 : pyEndsWith fn ".jpeg" <;>
  cases h7 : pyEndsWith fn ".tiff" <;>
  cases h8 : pyEndsWith fn ".bmp" <;>
  simp [h1, h2, h3, h4, h5, h6, h7, h8]

/-! ## Claims -/

/-- C2: for every input text, the skills list returned by the skills
extractor has no duplicate entries and length at most 20, and the
experience list returned by the experience extractor has length at most 5. -/
theorem skills_experience_caps (text : String) :
    (extractSkills text).Nodup ∧ (extractSkills text).length ≤ 20 ∧
      (extractExperience text).length ≤ 5 := by
  refine ⟨?_, ?_, ?_⟩
  · exact ((List.take_sublist 20 _).nodup (nodup_extractSkillsAll text))
  · rw [extractSkills, List.length_take]
    exact min_le_left _ _
  · unfold extractExperience
    cases reSearch expSectionRE text.data with
    | none => simp
    | some m =>
      dsimp only
      rw [List.length_take]
      exact min_le_left _ _

/-- C4: the cleaned text contains no newline character, so splitting it on
newlines (as every line-based field extractor of `_parse_resume_text`
does) yields the whole resume as a single line. -/
theorem clean_text_single_line (s : String) :
    '\n' ∉ (cleanText s).data ∧
      pySplitChar '\n' (cleanText s).data = [(cleanText s).data] :=
  ⟨cleanText_no_newline s, pySplitChar_no_sep (cleanText_no_newline s)⟩

/-- C5: the summary extractor returns either the empty string or a string
of length between 50 and 500; on a labeled summary section whose body
collapses to 30 characters it returns the empty string. -/
theorem summary_bounds :
    (∀ text : String, extractSummary text = "" ∨
        (50 ≤ (extractSummary text).length ∧ (extractSummary text).length ≤ 500)) ∧
      extractSummary "Summary: I build excellent web software" = "" := by
  constructor
  · intro text
    unfold extractSummary
    cases h1 : summaryCandidate summaryP1 text.data with
    | some s => exact Or.inr (summaryCandidate_bounds h1)
    | none =>
      cases h2 : summaryCandidate summaryP2 text.data with
      | some s => exact Or.inr (summaryCandidate_bounds h2)
      | none =>
        cases h3 : summaryCandidate summaryP3 text.data with
        | some s => exact Or.inr (summaryCandidate_bounds h3)
        | none => exact Or.inl rfl
  · decide

/-- C6: the years-of-experience extractor returns nothing or a value of at
most 50 (it is a `Nat`, hence at least 0); it returns 5 on
`5+ years of experience` and nothing on `75 years of experience`. -/
theorem years_range :
    (∀ (text : String) (n : Nat), extractYears text = some n → n ≤ 50) ∧
      extractYears "5+ years of experience" = some 5 ∧
      extractYears "75 years of experience" = none := by
  refine ⟨?_, by decide, by decide⟩
  intro text n h
  obtain ⟨r, _, hr⟩ := firstSome_eq_some h
  exact yearsCandidate_le hr

/-- Witness for `years_range` at a concrete input. -/
theorem years_range_witness :
    extractYears "experience: 12 years" = some 12 ∧ 12 ≤ 50 :=
  ⟨by decide, years_range.1 "experience: 12 years" 12 (by decide)⟩

/-- C10: a job block with fewer than 2 non-empty lines yields no
`WorkExperience` entry, whatever its content. -/
theorem job_block_two_line_precondition (block : String)
    (h : (jobLines block.data).length < 2) : parseJobBlock block = none := by
  simp only [parseJobBlock]
  rw [if_pos h]

/-- Witness for `job_block_two_line_precondition`: a one-line block whose
single line carries a company marker still yields no entry. -/
theorem job_block_two_line_precondition_witness :
    parseJobBlock "Tech Corp Inc" = none :=
  job_block_two_line_precondition "Tech Corp Inc" (by decide)

/-- C3: the four-line experience block of the spec parses to exactly the
specified entry, and a matched end date whose lowercase form is
`present`/`current` is always returned as the literal `Present`. -/
theorem job_block_example_and_present_norm :
    parseJobBlock "Tech Corp Inc\nSenior Engineer\nJanuary 2020 - Present\nSan Francisco, CA" =
        some ⟨"Tech Corp Inc", "Senior Engineer", some "San Francisco, CA",
          some "January 2020", some "Present", none, none⟩ ∧
      ∀ (dt : List Char) (s e : String), parseDates dt = (some s, some e) →
        e = "Present" ∨
          (pyLower e.data ≠ "present".data ∧ pyLower e.data ≠ "current".data) := by
  constructor
  · decide
  · intro dt s e h
    unfold parseDates at h
    split at h
    · simp at h
    · cases hm : firstSome (fun r => reSearch r dt) [dateP1, dateP2, dateP3] with
      | none => rw [hm] at h; simp at h
      | some m =>
        rw [hm] at h
        rw [Prod.mk.injEq] at h
        obtain ⟨-, h2⟩ := h
        obtain rfl := (Option.some.inj h2).symm
        rcases normEnd_spec (pyStrip (m.grp 2)) with hn | ⟨hn1, hn2⟩
        · exact Or.inl (by rw [show (⟨normEnd (pyStrip (m.grp 2))⟩ : String) = ⟨"Present".data⟩ from by rw [hn]])
        · exact Or.inr ⟨hn1, hn2⟩

/-- Witness for `job_block_example_and_present_norm`: the normalization
hypothesis discharged at a concrete date line. -/
theorem job_block_example_and_present_norm_witness :
    parseDates "2019 - current".data = (some "2019", some "Present") ∧
      (("Present" : String) = "Present" ∨
        (pyLower ("Present" : String).data ≠ "present".data ∧
          pyLower ("Present" : String).data ≠ "current".data)) :=
  ⟨by decide,
    job_block_example_and_present_norm.2 "2019 - current".data "2019" "Present" (by decide)⟩

/-- C7 (counterexample): with no named-entity recognizer, name extraction
on the first line `Jane Q. Public` does not return that line: the token
`Q.` is not purely alphabetic, so the line is rejected and the sentinel is
returned. -/
theorem name_punctuated_token_rejected :
    extractName none "Jane Q. Public" = "Unknown Name" ∧
      extractName none "Jane Q. Public" ≠ "Jane Q. Public" := by decide

/-- C7 (amended): with no named-entity recognizer, the first line
`Jane Q. Public` yields the sentinel `Unknown Name` — the token `Q.` is
not purely alphabetic, so the line fails the word test of the scan and of
`_is_valid_name` — while the concrete variant first line
`Jane Quinn Public` passes every guard of the line scan (length, contact
markers, token shape, name validation) and is returned verbatim. -/
theorem name_first_line_example :
    extractName none "Jane Quinn Public" = "Jane Quinn Public" ∧
      extractName none "Jane Q. Public" = "Unknown Name" := by decide

set_option maxRecDepth 16000

/-- C9 (counterexample): a text containing `JavaScript` whose skills
section already yields 20 candidates: `Java` enters the candidate set but
is dropped by the 20-cap, so the returned skills do not contain it. -/
theorem vocab_cap_drops_java :
    containsSub (pyLower ("Skills: qa, qb, qc, qd, qe, qf, qg, qh, qi, qj, qk, ql, qm, qn, qp, qq, qr, qs, qt, JavaScript" : String).data)
        "javascript".data = true ∧
      "JavaScript" ∈ extractSkills
        "Skills: qa, qb, qc, qd, qe, qf, qg, qh, qi, qj, qk, ql, qm, qn, qp, qq, qr, qs, qt, JavaScript" ∧
      "Java" ∉ extractSkills
        "Skills: qa, qb, qc, qd, qe, qf, qg, qh, qi, qj, qk, ql, qm, qn, qp, qq, qr, qs, qt, JavaScript" := by
  decide

/-- C9 (amended): the vocabulary test is raw substring containment on the
lowercased text, so any text containing `javascript` puts both
`JavaScript` and `Java` into the candidate skill set; both reach the
returned list whenever the candidate set has at most 20 members (beyond
that the 20-cap can drop them, and which members survive depends on
Python's unspecified set order, modelled here as insertion order). -/
theorem vocab_substring_membership (text : String)
    (h : containsSub (pyLower text.data) "javascript".data = true) :
    "JavaScript" ∈ extractSkillsAll text ∧ "Java" ∈ extractSkillsAll text ∧
      ((extractSkillsAll text).length ≤ 20 →
        "JavaScript" ∈ extractSkills text ∧ "Java" ∈ extractSkills text) := by
  have hjs : containsSub (pyLower text.data) (pyLower ("JavaScript" : String).data) = true := by
    rw [show pyLower ("JavaScript" : String).data = "javascript".data from by decide]
    exact h
  have hj : containsSub (pyLower text.data) (pyLower ("Java" : String).data) = true := by
    rw [show pyLower ("Java" : String).data = "java".data from by decide]
    exact containsSub_append_left _ _ _
      ((show "javascript".data = "java".data ++ "script".data from by decide) ▸ h)
  have h1 : "JavaScript" ∈ extractSkillsAll text := by
    simp only [extractSkillsAll]
    exact mem_techFold _ _ _ _ (by decide) hjs
  have h2 : "Java" ∈ extractSkillsAll text := by
    simp only [extractSkillsAll]
    exact mem_techFold _ _ _ _ (by decide) hj
  refine ⟨h1, h2, fun hlen => ?_⟩
  rw [extractSkills, List.take_of_length_le hlen]
  exact ⟨h1, h2⟩

/-- Witness for `vocab_substring_membership` at a concrete text. -/
theorem vocab_substring_membership_witness :
    containsSub (pyLower ("I know JavaScript" : String).data) "javascript".data = true ∧
      ("JavaScript" ∈ extractSkills "I know JavaScript" ∧
        "Java" ∈ extractSkills "I know JavaScript") :=
  ⟨by decide, (vocab_substring_membership "I know JavaScript" (by decide)).2.2 (by decide)⟩

/-- C8 (amended): the PDF cheap path triggers exactly when the
concatenated direct-extraction text has stripped length above 100 (a
measure that counts interior whitespace); below that, pages are rendered
and routed through OCR, with non-blank OCR output preferred and the direct
text as fallback. -/
theorem pdf_threshold (fb : FileBytes) (pages : List String)
    (hdir : fb.pdfDirect = some pages) :
    (100 < (pyStrip (pdfDirectText pages).data).length →
        extractTextFromPdf fb = (pdfDirectText pages, false)) ∧
      ((pyStrip (pdfDirectText pages).data).length ≤ 100 →
        ∀ imgs, fb.pdfRender = some imgs →
          extractTextFromPdf fb =
            (if (pyStrip (pdfOcrText imgs).data).isEmpty then pdfDirectText pages
              else pdfOcrText imgs, true)) := by
  constructor
  · intro hlen
    unfold extractTextFromPdf
    rw [hdir]
    dsimp only
    rw [if_pos hlen]
  · intro hlen imgs hrender
    unfold extractTextFromPdf
    rw [hdir]
    dsimp only
    rw [if_neg (by omega), hrender]
    dsimp only
    by_cases hemp : (pyStrip (pdfOcrText imgs).data).isEmpty = true
    · rw [if_pos hemp, if_pos hemp]
    · rw [if_neg hemp, if_neg hemp]

/-- C8 (counterexample): a page whose direct text holds only 2
non-whitespace characters inside 101 spaces still has stripped length
above 100, so the direct text is returned and the OCR tier never runs,
against the claim's non-whitespace-content reading of the threshold. -/
theorem pdf_threshold_counterexample :
    ((pdfDirectText [(⟨'a' :: (List.replicate 101 ' ' ++ ['b'])⟩ : String)]).data.filter
        (fun c => !pyWs c)).length ≤ 100 ∧
      extractTextFromPdf
          ⟨some [⟨'a' :: (List.replicate 101 ' ' ++ ['b'])⟩],
            some [⟨"recovered by optical recognition"⟩], none, none⟩ =
        (pdfDirectText [⟨'a' :: (List.replicate 101 ' ' ++ ['b'])⟩], false) := by
  decide

/-- Witness for `pdf_threshold`: short direct text routes to OCR and the
OCR output is returned. -/
theorem pdf_threshold_witness :
    extractTextFromPdf ⟨some ["hello"], some [⟨"optical text"⟩], none, none⟩ =
      ("optical text\n", true) := by
  have h := (pdf_threshold ⟨some ["hello"], some [⟨"optical text"⟩], none, none⟩
    ["hello"] rfl).2 (by decide) [⟨"optical text"⟩] rfl
  rw [h]
  decide

/-- C1 (amended): `parse_resume_file` raises the unsupported-file-type
error exactly for unsupported suffixes; the PDF path never raises; every
raised error is either that dispatch error or a re-raised DOCX/image
decoder failure — so for well-formed input of a supported type the parse
returns a fully assembled record. -/
theorem parse_file_failure_surface (nlp : Option Nlp) (fb : FileBytes) (fn : String) :
    (parseResumeFile nlp fb fn = .error (.unsupportedFileType fn) ↔ ¬ supportedSuffix fn) ∧
      (pyEndsWith fn ".pdf" = true → ∃ r, parseResumeFile nlp fb fn = .ok r) ∧
      (∀ e, parseResumeFile nlp fb fn = .error e →
        e = .unsupportedFileType fn ∨ (e = .docxDecodeError ∧ fb.docx = none) ∨
          (e = .imageDecodeError ∧ fb.image = none)) := by
  have hother := fileKind_other_iff fn
  cases hk : fileKind fn with
  | pdf =>
    have hsup : supportedSuffix fn := by
      by_contra hs
      rw [hother.mpr hs] at hk
      exact absurd hk (by decide)
    simp only [parseResumeFile, hk]
    refine ⟨⟨fun h => absurd h (by simp), fun h => absurd hsup h⟩,
      fun _ => ⟨_, rfl⟩, fun e he => absurd he (by simp)⟩
  | docx =>
    have hsup : supportedSuffix fn := by
      by_contra hs
      rw [hother.mpr hs] at hk
      exact absurd hk (by decide)
    simp only [parseResumeFile, hk, extractTextFromDocx]
    cases hd : fb.docx with
    | some d =>
      dsimp only
      refine ⟨⟨fun h => absurd h (by simp), fun h => absurd hsup h⟩, fun hp => ?_, fun e he => absurd he (by simp)⟩
      exact ⟨_, rfl⟩
    | none =>
      dsimp only
      refine ⟨⟨fun h => ?_, fun h => absurd hsup h⟩, fun hp => ?_, fun e he => ?_⟩
      · exact absurd (Except.error.inj h) (fun hc => ParseError.noConfusion hc)
      · rw [fileKind_pdf_of hp] at hk
        exact absurd hk (by decide)
      · exact Or.inr (Or.inl ⟨(Except.error.inj he).symm, rfl⟩)
  | image =>
    have hsup : supportedSuffix fn := by
      by_contra hs
      rw [hother.mpr hs] at hk
      exact absurd hk (by decide)
    simp only [parseResumeFile, hk, extractTextFromImage]
    cases hi : fb.image with
    | some img =>
      dsimp only
      refine ⟨⟨fun h => absurd h (by simp), fun h => absurd hsup h⟩, fun hp => ?_, fun e he => absurd he (by simp)⟩
      exact ⟨_, rfl⟩
    | none =>
      dsimp only
      refine ⟨⟨fun h => ?_, fun h => absurd hsup h⟩, fun hp => ?_, fun e he => ?_⟩
      · exact absurd (Except.error.inj h) (fun hc => ParseError.noConfusion hc)
      · rw [fileKind_pdf_of hp] at hk
        exact absurd hk (by decide)
      · exact Or.inr (Or.inr ⟨(Except.error.inj he).symm, rfl⟩)
  | other =>
    have hnsup : ¬ supportedSuffix fn := hother.mp hk
    simp only [parseResumeFile, hk]
    refine ⟨⟨fun _ => hnsup, fun _ => by simp⟩, fun hp => ?_, fun e he => ?_⟩
    · rw [fileKind_pdf_of hp] at hk
      exact absurd hk (by decide)
    · exact Or.inl (Except.error.inj he).symm

/-- Witness for `parse_file_failure_surface`: the dispatch error at an
unsupported extension. -/
theorem parse_file_failure_surface_witness :
    ¬ supportedSuffix "resume.txt" ∧
      parseResumeFile none ⟨none, none, none, none⟩ "resume.txt" =
        .error (.unsupportedFileType "resume.txt") :=
  ⟨by decide,
    (parse_file_failure_surface none ⟨none, none, none, none⟩ "resume.txt").1.mpr (by decide)⟩

/-- C1 (counterexample): a DOCX buffer whose decoder raises has its
decoding error re-raised by `parse_resume_file` instead of being resolved
internally. -/
theorem docx_error_propagates :
    parseResumeFile none ⟨none, none, none, none⟩ "resume.docx" =
      .error .docxDecodeError := by decide

end SimpleResume
